import Mathlib

/-!
Shallow embedding of the chesstack move-script core: the lexer and
interpreter of `src/rust/chessembly/src/lib.rs`, and the activation-to-move
translation loop of `GameState::get_legal_moves` in
`src/rust/engine/src/lib.rs`.  Rust `i32` values are modelled as `Int`
(no arithmetic in the embedded fragment approaches the `i32` range on the
inputs considered), `usize` as `Nat`, `HashMap`/`HashSet` as association
lists / membership lists (only lookups are performed by the source), and
the two panicking calls (`unwrap` in the `jump` arm, `expect` in the
`jmp`/`jne` arms) as an explicit `crash` outcome.  The interpreter's
unbounded `while` loop is run on explicit fuel; `none` means the fuel was
exhausted.
-/

namespace Chessembly

/-- Move kinds (`MoveType` in the source). -/
inductive MoveType where
  | TakeMove
  | Move
  | Take
  | Catch
  | Shift
  | Jump
deriving DecidableEq, Repr

/-- Action tag kinds (`ActionTagType`). -/
inductive ActionTagType where
  | Transition
  | SetState
deriving DecidableEq, Repr

/-- Deferred action tag attached to an activation (`ActionTag`). -/
structure ActionTag where
  tag_type : ActionTagType
  key : String
  value : Int
  piece_name : Option String
deriving DecidableEq, Repr

/-- An activated target square emitted by the interpreter (`Activation`). -/
structure Activation where
  dx : Int
  dy : Int
  move_type : MoveType
  tags : List ActionTag
  catch_to : Option (Int × Int)
deriving DecidableEq, Repr

/-- Board snapshot handed to the interpreter (`BoardState`).  The `pieces`
and `state` hash maps are modelled as association lists (first match wins,
mirroring the unique-key map), `danger_squares` as a membership list. -/
structure BoardState where
  board_width : Int
  board_height : Int
  piece_x : Int
  piece_y : Int
  piece_name : String
  is_white : Bool
  pieces : List ((Int × Int) × (String × Bool))
  state : List (String × Int)
  danger_squares : List (Int × Int)
  in_check : Bool
deriving DecidableEq, Repr

/-- First-match association-list lookup, the model of `HashMap::get`. -/
def alookup {α β : Type} [DecidableEq α] : List (α × β) → α → Option β
  | [], _ => none
  | (k, v) :: rest, a => if k = a then some v else alookup rest a

/-- `BoardState::in_bounds`. -/
def BoardState.in_bounds (b : BoardState) (x y : Int) : Bool :=
  decide (0 ≤ x) && decide (x < b.board_width) &&
  decide (0 ≤ y) && decide (y < b.board_height)

/-- `BoardState::is_empty`. -/
def BoardState.is_empty (b : BoardState) (x y : Int) : Bool :=
  b.in_bounds x y && (alookup b.pieces (x, y)).isNone

/-- `BoardState::has_enemy`. -/
def BoardState.has_enemy (b : BoardState) (x y : Int) : Bool :=
  match alookup b.pieces (x, y) with
  | some (_, w) => decide (w ≠ b.is_white)
  | none => false

/-- `BoardState::has_friendly`. -/
def BoardState.has_friendly (b : BoardState) (x y : Int) : Bool :=
  match alookup b.pieces (x, y) with
  | some (_, w) => decide (w = b.is_white)
  | none => false

/-- `BoardState::has_piece`. -/
def BoardState.has_piece (b : BoardState) (x y : Int) (n : String) : Bool :=
  match alookup b.pieces (x, y) with
  | some (nm, _) => decide (nm = n)
  | none => false

/-- Token kinds (`Token`). -/
inductive Token where
  | TakeMove (dx dy : Int)
  | Move (dx dy : Int)
  | Take (dx dy : Int)
  | Catch (dx dy : Int)
  | Shift (dx dy : Int)
  | Jump (dx dy : Int)
  | Anchor (dx dy : Int)
  | Observe (dx dy : Int)
  | Peek (dx dy : Int)
  | Enemy (dx dy : Int)
  | Friendly (dx dy : Int)
  | PieceOn (name : String) (dx dy : Int)
  | Danger (dx dy : Int)
  | Check
  | Bound (dx dy : Int)
  | Edge (dx dy : Int)
  | EdgeTop (dx dy : Int)
  | EdgeBottom (dx dy : Int)
  | EdgeLeft (dx dy : Int)
  | EdgeRight (dx dy : Int)
  | Corner (dx dy : Int)
  | CornerTopLeft (dx dy : Int)
  | CornerTopRight (dx dy : Int)
  | CornerBottomLeft (dx dy : Int)
  | CornerBottomRight (dx dy : Int)
  | Piece (name : String)
  | IfState (key : String) (v : Int)
  | SetState (key : String) (v : Int)
  | SetStateReset
  | Transition (name : String)
  | Repeat (n : Nat)
  | Do
  | While
  | Jmp (label : String)
  | Jne (label : String)
  | Label (name : String)
  | Not
  | End
  | OpenBrace
  | CloseBrace
  | Semicolon
deriving DecidableEq, Repr

namespace Lexer

/-- Characters that terminate a word in `Lexer::read_word`. -/
def isBreakChar (c : Char) : Bool :=
  c = ';' || c = '{' || c = '}' || c = '(' || c = ')' || c = ',' || c = '#'

/-- `Lexer::skip_whitespace`. -/
def skipWs (cs : List Char) : List Char :=
  cs.dropWhile Char.isWhitespace

/-- `Lexer::skip_comment`: if positioned on `#`, drop up to (not including)
the next newline. -/
def skipComment (cs : List Char) : List Char :=
  match cs with
  | '#' :: _ => cs.dropWhile (fun c => c ≠ '\n')
  | _ => cs

/-- `Lexer::read_word`: the maximal run of non-whitespace, non-break
characters, together with the remaining input. -/
def readWord (cs : List Char) : String × List Char :=
  (String.mk (cs.takeWhile (fun c => ¬ (c.isWhitespace || isBreakChar c))),
   cs.dropWhile (fun c => ¬ (c.isWhitespace || isBreakChar c)))

/-- `str::trim` on a character list (ASCII whitespace). -/
def trimChars (cs : List Char) : List Char :=
  ((cs.dropWhile Char.isWhitespace).reverse.dropWhile Char.isWhitespace).reverse

/-- Body of the `Lexer::read_args` scanning loop: accumulates the current
argument and the (reversed) argument list, tracking nesting depth. -/
def readArgsLoop : List Char → List Char → Nat → List String → List String × List Char
  | [], _, _, args => (args.reverse, [])
  | c :: rest, cur, depth, args =>
    if c = '(' then
      readArgsLoop rest (cur ++ ['(']) (depth + 1) args
    else if c = ')' then
      if depth = 0 then
        let t := String.mk (trimChars cur)
        ((if t = "" then args else t :: args).reverse, rest)
      else
        readArgsLoop rest (cur ++ [')']) (depth - 1) args
    else if c = ',' then
      if depth = 0 then
        let t := String.mk (trimChars cur)
        readArgsLoop rest [] 0 (if t = "" then args else t :: args)
      else
        readArgsLoop rest (cur ++ [',']) depth args
    else
      readArgsLoop rest (cur ++ [c]) depth args

/-- `Lexer::read_args`. -/
def readArgs (cs : List Char) : List String × List Char :=
  let cs' := skipWs cs
  match cs' with
  | '(' :: rest => readArgsLoop rest [] 0 []
  | _ => ([], cs')

/-- All-digit string value; `none` when empty or a non-digit occurs. -/
def digitsVal : List Char → Nat → Option Nat
  | [], acc => some acc
  | c :: rest, acc =>
    if c.isDigit then digitsVal rest (acc * 10 + (c.toNat - 48)) else none

/-- `str::parse::<i32>`: optional sign, at least one digit, result must fit
in `i32`. -/
def parseI32? (s : String) : Option Int :=
  match s.toList with
  | [] => none
  | '+' :: rest =>
    match rest with
    | [] => none
    | _ => (digitsVal rest 0).bind
        (fun n => if n ≤ 2147483647 then some (Int.ofNat n) else none)
  | '-' :: rest =>
    match rest with
    | [] => none
    | _ => (digitsVal rest 0).bind
        (fun n => if n ≤ 2147483648 then some (-(Int.ofNat n)) else none)
  | cs => (digitsVal cs 0).bind
      (fun n => if n ≤ 2147483647 then some (Int.ofNat n) else none)

/-- `str::parse::<usize>`: optional `+`, at least one digit (64-bit bound). -/
def parseUsize? (s : String) : Option Nat :=
  match s.toList with
  | [] => none
  | '+' :: rest =>
    match rest with
    | [] => none
    | _ => (digitsVal rest 0).bind
        (fun n => if n ≤ 18446744073709551615 then some n else none)
  | cs => (digitsVal cs 0).bind
      (fun n => if n ≤ 18446744073709551615 then some n else none)

/-- The `parse_i32` closure in `Lexer::parse_token`: `unwrap_or(0)`. -/
def parse_i32 (s : String) : Int :=
  (parseI32? s).getD 0

/-- The `get_xy` closure in `Lexer::parse_token`. -/
def get_xy (args : List String) : Int × Int :=
  match args with
  | a :: b :: _ => (parse_i32 a, parse_i32 b)
  | _ => (0, 0)

/-- `Lexer::parse_token`. -/
def parse_token (word : String) (args : List String) : Token :=
  match word with
  | "take-move" => let (dx, dy) := get_xy args; Token.TakeMove dx dy
  | "move" => let (dx, dy) := get_xy args; Token.Move dx dy
  | "take" => let (dx, dy) := get_xy args; Token.Take dx dy
  | "catch" => let (dx, dy) := get_xy args; Token.Catch dx dy
  | "shift" => let (dx, dy) := get_xy args; Token.Shift dx dy
  | "jump" => let (dx, dy) := get_xy args; Token.Jump dx dy
  | "anchor" => let (dx, dy) := get_xy args; Token.Anchor dx dy
  | "observe" => let (dx, dy) := get_xy args; Token.Observe dx dy
  | "peek" => let (dx, dy) := get_xy args; Token.Peek dx dy
  | "enemy" => let (dx, dy) := get_xy args; Token.Enemy dx dy
  | "friendly" => let (dx, dy) := get_xy args; Token.Friendly dx dy
  | "piece-on" =>
    match args with
    | a :: b :: c :: _ => Token.PieceOn a (parse_i32 b) (parse_i32 c)
    | _ => Token.End
  | "danger" => let (dx, dy) := get_xy args; Token.Danger dx dy
  | "check" => Token.Check
  | "bound" => let (dx, dy) := get_xy args; Token.Bound dx dy
  | "edge" => let (dx, dy) := get_xy args; Token.Edge dx dy
  | "edge-top" => let (dx, dy) := get_xy args; Token.EdgeTop dx dy
  | "edge-bottom" => let (dx, dy) := get_xy args; Token.EdgeBottom dx dy
  | "edge-left" => let (dx, dy) := get_xy args; Token.EdgeLeft dx dy
  | "edge-right" => let (dx, dy) := get_xy args; Token.EdgeRight dx dy
  | "corner" => let (dx, dy) := get_xy args; Token.Corner dx dy
  | "corner-top-left" => let (dx, dy) := get_xy args; Token.CornerTopLeft dx dy
  | "corner-top-right" => let (dx, dy) := get_xy args; Token.CornerTopRight dx dy
  | "corner-bottom-left" => let (dx, dy) := get_xy args; Token.CornerBottomLeft dx dy
  | "corner-bottom-right" => let (dx, dy) := get_xy args; Token.CornerBottomRight dx dy
  | "piece" =>
    match args with
    | a :: _ => Token.Piece a
    | _ => Token.End
  | "if-state" =>
    match args with
    | a :: b :: _ => Token.IfState a (parse_i32 b)
    | _ => Token.End
  | "set-state" =>
    match args with
    | a :: b :: _ => Token.SetState a (parse_i32 b)
    | _ => Token.SetStateReset
  | "transition" =>
    match args with
    | a :: _ => Token.Transition a
    | _ => Token.End
  | "repeat" =>
    match args with
    | a :: _ => Token.Repeat ((parseUsize? a).getD 1)
    | _ => Token.Repeat 1
  | "do" => Token.Do
  | "while" => Token.While
  | "jmp" =>
    match args with
    | a :: _ => Token.Jmp a
    | _ => Token.End
  | "jne" =>
    match args with
    | a :: _ => Token.Jne a
    | _ => Token.End
  | "label" =>
    match args with
    | a :: _ => Token.Label a
    | _ => Token.End
  | "not" => Token.Not
  | "end" => Token.End
  | _ => Token.End

/-- One round of `Lexer::next_token`; the fuel bounds the skip-and-retry
loop (each retry consumes at least one character). -/
def nextToken : Nat → List Char → Option (Token × List Char)
  | 0, _ => none
  | fuel + 1, cs =>
    let cs' := skipWs (skipComment (skipWs cs))
    match cs' with
    | [] => none
    | ';' :: rest => some (Token.Semicolon, rest)
    | '{' :: rest => some (Token.OpenBrace, rest)
    | '}' :: rest => some (Token.CloseBrace, rest)
    | '#' :: _ => nextToken fuel (skipComment cs')
    | _ :: rest =>
      let (w, cs'') := readWord cs'
      if w = "" then
        nextToken fuel rest
      else
        let (args, cs''') := readArgs cs''
        some (parse_token w args, cs''')

end Lexer

/-- The token-collection loop of `Interpreter::parse`. -/
def tokenizeLoop : Nat → List Char → List Token → List Token
  | 0, _, acc => acc.reverse
  | fuel + 1, cs, acc =>
    match Lexer.nextToken (cs.length + 1) cs with
    | none => acc.reverse
    | some (t, rest) => tokenizeLoop fuel rest (t :: acc)

/-- `Interpreter::parse`: the token stream of a script. -/
def Interpreter.parse (input : String) : List Token :=
  tokenizeLoop (input.toList.length + 1) input.toList []

/-- The per-chain label table built by the prepass of `Interpreter::execute`
(`labels : HashMap<usize, HashMap<String, usize>>`). -/
abbrev LabelTable := List (Nat × List (String × Nat))

/-- Inner `HashMap::insert` (replace on equal key, else append). -/
def insertInner : List (String × Nat) → String → Nat → List (String × Nat)
  | [], n, p => [(n, p)]
  | (n', p') :: rest, n, p =>
    if n' = n then (n, p) :: rest else (n', p') :: insertInner rest n p

/-- `labels.entry(chain).or_insert_with(HashMap::new).insert(name, pc)`. -/
def insertLabel : LabelTable → Nat → String → Nat → LabelTable
  | [], c, n, p => [(c, [(n, p)])]
  | (c', m) :: rest, c, n, p =>
    if c' = c then (c, insertInner m n p) :: rest
    else (c', m) :: insertLabel rest c n p

/-- `labels.get(&chain).and_then(|inner| inner.get(label))`. -/
def lookupLabel (labels : LabelTable) (c : Nat) (n : String) : Option Nat :=
  match alookup labels c with
  | some inner => alookup inner n
  | none => none

/-- The label prepass of `Interpreter::execute`: `pc` is the index of the
head of `rest` within the full stream; a `label` records the position
after itself under the chain index current at its definition. -/
def prepass : List Token → Nat → Nat → LabelTable → LabelTable
  | [], _, _, labels => labels
  | t :: rest, pc, chain, labels =>
    match t with
    | Token.Semicolon => prepass rest (pc + 1) (chain + 1) labels
    | Token.Label n => prepass rest (pc + 1) chain (insertLabel labels chain n (pc + 1))
    | _ => prepass rest (pc + 1) chain labels

/-- The label table of a token stream. -/
def buildLabels (toks : List Token) : LabelTable :=
  prepass toks 0 0 []

/-- The mutable locals of `Interpreter::execute`, including the borrowed
board (`&mut BoardState`), threaded through every step so that writes
through the reference would be visible. -/
structure ExecState where
  board : BoardState
  activations : List Activation
  pc : Nat
  num_of_open_brace : Nat
  index_of_expression_chain : Nat
  anchor_x : Int
  anchor_y : Int
  last_value : Bool
  pending_tags : List ActionTag
  do_index : Option Nat
  scope_stack : List (Int × Int × Nat)
  last_take_pos : Option (Int × Int)
deriving DecidableEq, Repr

/-- Outcome of dispatching one token: a new state, or a Rust panic
(`unwrap` / `expect`). -/
inductive DispatchResult where
  | ok (s : ExecState)
  | crash
deriving DecidableEq, Repr

/-- Dispatch of a single token: the big `match token` of
`Interpreter::execute`.  `s.pc` has already been incremented past the
token being dispatched, exactly as in the source. -/
def dispatch (labels : LabelTable) (s : ExecState) : Token → DispatchResult
  | Token.Semicolon =>
    DispatchResult.ok { s with
      anchor_x := 0, anchor_y := 0, last_value := true,
      pending_tags := [], do_index := none, last_take_pos := none,
      index_of_expression_chain := s.index_of_expression_chain + 1 }
  | Token.OpenBrace =>
    DispatchResult.ok { s with
      scope_stack := (s.anchor_x, s.anchor_y, s.pc) :: s.scope_stack,
      last_value := true }
  | Token.CloseBrace =>
    match s.scope_stack with
    | (ax, ay, _) :: rest =>
      DispatchResult.ok { s with
        anchor_x := ax, anchor_y := ay, scope_stack := rest, last_value := true }
    | [] => DispatchResult.ok { s with last_value := true }
  | Token.TakeMove dx dy =>
    let tx := s.board.piece_x + s.anchor_x + dx
    let ty := s.board.piece_y + s.anchor_y + dy
    if ¬ s.board.in_bounds tx ty || s.board.has_friendly tx ty then
      DispatchResult.ok { s with last_value := false }
    else if s.board.has_enemy tx ty then
      DispatchResult.ok { s with
        activations := s.activations ++
          [{ dx := s.anchor_x + dx, dy := s.anchor_y + dy,
             move_type := MoveType.TakeMove, tags := s.pending_tags,
             catch_to := none }],
        anchor_x := s.anchor_x + dx, anchor_y := s.anchor_y + dy,
        last_value := false }
    else
      DispatchResult.ok { s with
        activations := s.activations ++
          [{ dx := s.anchor_x + dx, dy := s.anchor_y + dy,
             move_type := MoveType.TakeMove, tags := s.pending_tags,
             catch_to := none }],
        anchor_x := s.anchor_x + dx, anchor_y := s.anchor_y + dy,
        last_value := true }
  | Token.Move dx dy =>
    let tx := s.board.piece_x + s.anchor_x + dx
    let ty := s.board.piece_y + s.anchor_y + dy
    if s.board.is_empty tx ty then
      DispatchResult.ok { s with
        activations := s.activations ++
          [{ dx := s.anchor_x + dx, dy := s.anchor_y + dy,
             move_type := MoveType.Move, tags := s.pending_tags,
             catch_to := none }],
        anchor_x := s.anchor_x + dx, anchor_y := s.anchor_y + dy,
        last_value := true }
    else
      DispatchResult.ok { s with last_value := false }
  | Token.Take dx dy =>
    let tx := s.board.piece_x + s.anchor_x + dx
    let ty := s.board.piece_y + s.anchor_y + dy
    if s.board.has_enemy tx ty then
      DispatchResult.ok { s with
        last_take_pos := some (s.anchor_x + dx, s.anchor_y + dy),
        activations := s.activations ++
          [{ dx := s.anchor_x + dx, dy := s.anchor_y + dy,
             move_type := MoveType.Take, tags := s.pending_tags,
             catch_to := none }],
        anchor_x := s.anchor_x + dx, anchor_y := s.anchor_y + dy,
        last_value := true }
    else if s.board.in_bounds tx ty && ¬ s.board.has_friendly tx ty then
      DispatchResult.ok { s with
        anchor_x := s.anchor_x + dx, anchor_y := s.anchor_y + dy,
        last_value := true }
    else
      DispatchResult.ok { s with last_value := false }
  | Token.Jump dx dy =>
    match s.activations.getLast? with
    | none => DispatchResult.crash
    | some a =>
      let acts :=
        if a.move_type = MoveType.Take then s.activations.dropLast
        else s.activations
      match s.last_take_pos with
      | some _ =>
        let tx := s.board.piece_x + s.anchor_x + dx
        let ty := s.board.piece_y + s.anchor_y + dy
        if s.board.is_empty tx ty then
          DispatchResult.ok { s with
            activations := acts ++
              [{ dx := s.anchor_x + dx, dy := s.anchor_y + dy,
                 move_type := MoveType.Jump, tags := s.pending_tags,
                 catch_to := s.last_take_pos }],
            anchor_x := s.anchor_x + dx, anchor_y := s.anchor_y + dy,
            last_value := true }
        else
          DispatchResult.ok { s with activations := acts, last_value := false }
      | none =>
        DispatchResult.ok { s with activations := acts, last_value := false }
  | Token.Catch dx dy =>
    let tx := s.board.piece_x + s.anchor_x + dx
    let ty := s.board.piece_y + s.anchor_y + dy
    if s.board.has_enemy tx ty then
      DispatchResult.ok { s with
        activations := s.activations ++
          [{ dx := s.anchor_x + dx, dy := s.anchor_y + dy,
             move_type := MoveType.Catch, tags := s.pending_tags,
             catch_to := none }],
        last_value := true }
    else
      DispatchResult.ok { s with last_value := false }
  | Token.Shift dx dy =>
    let tx := s.board.piece_x + s.anchor_x + dx
    let ty := s.board.piece_y + s.anchor_y + dy
    if s.board.in_bounds tx ty && ¬ s.board.is_empty tx ty then
      DispatchResult.ok { s with
        activations := s.activations ++
          [{ dx := s.anchor_x + dx, dy := s.anchor_y + dy,
             move_type := MoveType.Shift, tags := s.pending_tags,
             catch_to := none }],
        anchor_x := s.anchor_x + dx, anchor_y := s.anchor_y + dy,
        last_value := true }
    else
      DispatchResult.ok { s with last_value := false }
  | Token.Anchor dx dy =>
    DispatchResult.ok { s with
      anchor_x := s.anchor_x + dx, anchor_y := s.anchor_y + dy,
      last_value := true }
  | Token.Observe dx dy =>
    let tx := s.board.piece_x + s.anchor_x + dx
    let ty := s.board.piece_y + s.anchor_y + dy
    DispatchResult.ok { s with last_value := s.board.is_empty tx ty }
  | Token.Peek dx dy =>
    let tx := s.board.piece_x + s.anchor_x + dx
    let ty := s.board.piece_y + s.anchor_y + dy
    if s.board.is_empty tx ty then
      DispatchResult.ok { s with
        anchor_x := s.anchor_x + dx, anchor_y := s.anchor_y + dy,
        last_value := true }
    else if s.board.is_empty tx ty = false then
      DispatchResult.ok { s with
        anchor_x := s.anchor_x + dx, anchor_y := s.anchor_y + dy,
        last_value := false }
    else
      DispatchResult.ok { s with last_value := false }
  | Token.Enemy dx dy =>
    let tx := s.board.piece_x + s.anchor_x + dx
    let ty := s.board.piece_y + s.anchor_y + dy
    DispatchResult.ok { s with last_value := s.board.has_enemy tx ty }
  | Token.Friendly dx dy =>
    let tx := s.board.piece_x + s.anchor_x + dx
    let ty := s.board.piece_y + s.anchor_y + dy
    DispatchResult.ok { s with last_value := s.board.has_friendly tx ty }
  | Token.PieceOn name dx dy =>
    let tx := s.board.piece_x + s.anchor_x + dx
    let ty := s.board.piece_y + s.anchor_y + dy
    DispatchResult.ok { s with last_value := s.board.has_piece tx ty name }
  | Token.Danger dx dy =>
    let tx := s.board.piece_x + s.anchor_x + dx
    let ty := s.board.piece_y + s.anchor_y + dy
    DispatchResult.ok { s with
      last_value := decide ((tx, ty) ∈ s.board.danger_squares) }
  | Token.Check =>
    DispatchResult.ok { s with last_value := s.board.in_check }
  | Token.Bound dx dy =>
    let tx := s.board.piece_x + s.anchor_x + dx
    let ty := s.board.piece_y + s.anchor_y + dy
    DispatchResult.ok { s with last_value := ¬ s.board.in_bounds tx ty }
  | Token.Edge dx dy =>
    let tx := s.board.piece_x + s.anchor_x + dx
    let ty := s.board.piece_y + s.anchor_y + dy
    DispatchResult.ok { s with
      last_value := decide (tx < 0) || decide (tx ≥ s.board.board_width) ||
                    decide (ty < 0) || decide (ty ≥ s.board.board_height) }
  | Token.EdgeTop _ dy =>
    let ty := s.board.piece_y + s.anchor_y + dy
    DispatchResult.ok { s with last_value := decide (ty ≥ s.board.board_height) }
  | Token.EdgeBottom _ dy =>
    let ty := s.board.piece_y + s.anchor_y + dy
    DispatchResult.ok { s with last_value := decide (ty < 0) }
  | Token.EdgeLeft dx _ =>
    let tx := s.board.piece_x + s.anchor_x + dx
    DispatchResult.ok { s with last_value := decide (tx < 0) }
  | Token.EdgeRight dx _ =>
    let tx := s.board.piece_x + s.anchor_x + dx
    DispatchResult.ok { s with last_value := decide (tx ≥ s.board.board_width) }
  | Token.Corner dx dy =>
    let tx := s.board.piece_x + s.anchor_x + dx
    let ty := s.board.piece_y + s.anchor_y + dy
    DispatchResult.ok { s with
      last_value := (decide (tx < 0) || decide (tx ≥ s.board.board_width)) &&
                    (decide (ty < 0) || decide (ty ≥ s.board.board_height)) }
  | Token.CornerTopLeft dx dy =>
    let tx := s.board.piece_x + s.anchor_x + dx
    let ty := s.board.piece_y + s.anchor_y + dy
    DispatchResult.ok { s with
      last_value := decide (tx < 0) && decide (ty ≥ s.board.board_height) }
  | Token.CornerTopRight dx dy =>
    let tx := s.board.piece_x + s.anchor_x + dx
    let ty := s.board.piece_y + s.anchor_y + dy
    DispatchResult.ok { s with
      last_value := decide (tx ≥ s.board.board_width) && decide (ty ≥ s.board.board_height) }
  | Token.CornerBottomLeft dx dy =>
    let tx := s.board.piece_x + s.anchor_x + dx
    let ty := s.board.piece_y + s.anchor_y + dy
    DispatchResult.ok { s with
      last_value := decide (tx < 0) && decide (ty < 0) }
  | Token.CornerBottomRight dx dy =>
    let tx := s.board.piece_x + s.anchor_x + dx
    let ty := s.board.piece_y + s.anchor_y + dy
    DispatchResult.ok { s with
      last_value := decide (tx ≥ s.board.board_width) && decide (ty < 0) }
  | Token.Piece name =>
    DispatchResult.ok { s with last_value := decide (s.board.piece_name = name) }
  | Token.IfState key expected =>
    let actual := (alookup s.board.state key).getD 0
    DispatchResult.ok { s with last_value := decide (actual = expected) }
  | Token.SetState key value =>
    DispatchResult.ok { s with
      pending_tags := s.pending_tags ++
        [{ tag_type := ActionTagType.SetState, key := key, value := value,
           piece_name := none }],
      last_value := true }
  | Token.SetStateReset =>
    DispatchResult.ok { s with
      pending_tags := s.pending_tags.dropLast, last_value := true }
  | Token.Transition piece_name =>
    DispatchResult.ok { s with
      pending_tags := s.pending_tags ++
        [{ tag_type := ActionTagType.Transition, key := "", value := 0,
           piece_name := some piece_name }],
      last_value := true }
  | Token.Repeat n =>
    if s.last_value ∧ n > 0 then
      DispatchResult.ok { s with pc := if s.pc > n then s.pc - n - 1 else 0 }
    else
      DispatchResult.ok s
  | Token.Do =>
    if s.last_value then
      DispatchResult.ok { s with do_index := some s.pc }
    else
      DispatchResult.ok s
  | Token.While =>
    if s.last_value then
      match s.do_index with
      | some target => DispatchResult.ok { s with pc := target, last_value := true }
      | none => DispatchResult.ok { s with last_value := true }
    else
      DispatchResult.ok { s with last_value := true }
  | Token.Jmp label =>
    if s.last_value then
      match lookupLabel labels s.index_of_expression_chain label with
      | some target => DispatchResult.ok { s with pc := target, last_value := true }
      | none => DispatchResult.crash
    else
      DispatchResult.ok { s with last_value := true }
  | Token.Jne label =>
    if ¬ s.last_value then
      match lookupLabel labels s.index_of_expression_chain label with
      | some target => DispatchResult.ok { s with pc := target, last_value := true }
      | none => DispatchResult.crash
    else
      DispatchResult.ok { s with last_value := true }
  | Token.Label _ => DispatchResult.ok s
  | Token.Not => DispatchResult.ok { s with last_value := ¬ s.last_value }
  | Token.End => DispatchResult.ok { s with last_value := false }

/-- The exception set of the chain-termination rule. -/
def isException : Token → Bool
  | Token.While => true
  | Token.Jmp _ => true
  | Token.Jne _ => true
  | Token.Not => true
  | Token.Label _ => true
  | Token.Semicolon => true
  | Token.CloseBrace => true
  | _ => false

/-- How the chain-termination skip loop exited. -/
inductive SkipExit where
  | semicolon
  | closeBrace
  | endOfTokens
deriving DecidableEq, Repr

/-- The chain-termination skip loop of `Interpreter::execute` (the
`should_terminate` branch).  The fuel only bounds the recursion; each
round consumes one token, so `toks.length + 1` never runs out. -/
def skipChain (toks : List Token) : Nat → ExecState → ExecState × SkipExit
  | 0, s => (s, SkipExit.endOfTokens)
  | fuel + 1, s =>
    if h : s.pc < toks.length then
      match toks[s.pc] with
      | Token.Semicolon =>
        ({ s with
            anchor_x := 0, anchor_y := 0, pending_tags := [],
            do_index := none, last_take_pos := none,
            pc := s.pc + 1,
            index_of_expression_chain := s.index_of_expression_chain + 1 },
         SkipExit.semicolon)
      | Token.CloseBrace =>
        if s.num_of_open_brace > 0 then
          skipChain toks fuel
            { s with num_of_open_brace := s.num_of_open_brace - 1, pc := s.pc + 1 }
        else
          match s.scope_stack with
          | (ax, ay, _) :: rest =>
            ({ s with anchor_x := ax, anchor_y := ay, scope_stack := rest,
                      pc := s.pc + 1 },
             SkipExit.closeBrace)
          | [] => ({ s with pc := s.pc + 1 }, SkipExit.closeBrace)
      | Token.OpenBrace =>
        skipChain toks fuel
          { s with num_of_open_brace := s.num_of_open_brace + 1, pc := s.pc + 1 }
      | _ => skipChain toks fuel { s with pc := s.pc + 1 }
    else (s, SkipExit.endOfTokens)

/-- Result of one round of the main `while pc < tokens.len()` loop. -/
inductive StepResult where
  | next (s : ExecState)
  | done (s : ExecState)
  | crash
deriving DecidableEq, Repr

/-- Skip the rest of the chain, then resume with `last_value = true`
(the assignment right after the source's skip loop). -/
def skipAndResume (toks : List Token) (s : ExecState) : ExecState :=
  { (skipChain toks (toks.length + 1) s).1 with last_value := true }

/-- One round of the main loop: read the token, advance `pc`, either skip
the rest of the chain (chain-termination rule) or dispatch. -/
def stepOnce (toks : List Token) (labels : LabelTable) (s : ExecState) : StepResult :=
  if h : s.pc < toks.length then
    let token := toks[s.pc]
    let s' : ExecState := { s with pc := s.pc + 1 }
    if ¬ s'.last_value && ¬ isException token then
      StepResult.next (skipAndResume toks s')
    else
      match dispatch labels s' token with
      | DispatchResult.ok s'' => StepResult.next s''
      | DispatchResult.crash => StepResult.crash
  else StepResult.done s

/-- Overall outcome of `Interpreter::execute`: the activation list and the
final state of the borrowed board, or a panic. -/
inductive ExecResult where
  | ok (activations : List Activation) (board : BoardState)
  | crash
deriving DecidableEq, Repr

/-- Iterate the main loop on fuel; `none` means the fuel ran out before
the loop terminated. -/
def runLoop (toks : List Token) (labels : LabelTable) : Nat → ExecState → Option ExecResult
  | 0, _ => none
  | fuel + 1, s =>
    match stepOnce toks labels s with
    | StepResult.next s' => runLoop toks labels fuel s'
    | StepResult.done s' => some (ExecResult.ok s'.activations s'.board)
    | StepResult.crash => some ExecResult.crash

/-- The initial locals of `Interpreter::execute`. -/
def initState (board : BoardState) : ExecState :=
  { board := board, activations := [], pc := 0, num_of_open_brace := 0,
    index_of_expression_chain := 0, anchor_x := 0, anchor_y := 0,
    last_value := true, pending_tags := [], do_index := none,
    scope_stack := [], last_take_pos := none }

/-- `Interpreter::execute` on explicit fuel. -/
def execute (toks : List Token) (board : BoardState) (fuel : Nat) : Option ExecResult :=
  runLoop toks (buildLabels toks) fuel (initState board)

/-- Iterate exactly `n` rounds of the main loop, exposing the intermediate
state (`none` if the loop finished or crashed before `n` rounds). -/
def runSteps (toks : List Token) (labels : LabelTable) : Nat → ExecState → Option ExecState
  | 0, s => some s
  | n + 1, s =>
    match stepOnce toks labels s with
    | StepResult.next s' => runSteps toks labels n s'
    | _ => none

/-- The chain index of a token position: how many `;` tokens lie strictly
before it. -/
def chainOf (toks : List Token) (i : Nat) : Nat :=
  (toks.take i).countP (fun t => decide (t = Token.Semicolon))

end Chessembly

namespace Engine

open Chessembly

/-- `Square` of the engine. -/
structure Square where
  x : Int
  y : Int
deriving DecidableEq, Repr

/-- `Square::is_valid`. -/
def Square.is_valid (s : Square) : Bool :=
  decide (0 ≤ s.x) && decide (s.x < 8) && decide (0 ≤ s.y) && decide (s.y < 8)

/-- `LegalMove` of the engine (`from`/`to` are Lean keywords, hence the
`_sq` suffix). -/
structure LegalMove where
  from_sq : Square
  to_sq : Square
  move_type : MoveType
  is_capture : Bool
  tags : List ActionTag
  catch_to : Square
deriving DecidableEq, Repr

/-- `self.board.contains_key(&target)`: the occupancy map keyed by square
(values are opaque piece ids). -/
def containsKey (board : List (Square × Nat)) (target : Square) : Bool :=
  board.any (fun p => decide (p.1 = target))

/-- The activation-translation loop of `GameState::get_legal_moves`
(`for activation in activations`): bounds filter, capture flag, record
synthesis. -/
def legalMovesFromActivations (board : List (Square × Nat)) (pos : Square) :
    List Activation → List LegalMove
  | [] => []
  | a :: rest =>
    let target : Square := { x := pos.x + a.dx, y := pos.y + a.dy }
    let takemove_sq : Square :=
      match a.catch_to with
      | some (x, y) => { x := pos.x + x, y := pos.y + y }
      | none => { x := 0, y := 0 }
    if target.is_valid then
      { from_sq := pos, to_sq := target, move_type := a.move_type,
        is_capture := containsKey board target, tags := a.tags,
        catch_to := takemove_sq } :: legalMovesFromActivations board pos rest
    else
      legalMovesFromActivations board pos rest

end Engine

open Chessembly Engine

/-- The reference 8×8 board with the acting white piece at `(4, 4)`
(the `make_empty_board` fixture of the source tests). -/
def emptyBoard8 : BoardState :=
  { board_width := 8, board_height := 8, piece_x := 4, piece_y := 4,
    piece_name := "test", is_white := true, pieces := [],
    state := [], danger_squares := [], in_check := false }

/-- Scenario S2 script. -/
def scriptS2 : String := "take-move(1, 0) repeat(1);"

/-- Scenario S2 board: a single black enemy at `(6, 4)`. -/
def boardS2 : BoardState :=
  { emptyBoard8 with pieces := [((6, 4), ("pawn", false))] }

/-- First S2 activation: offset `(1, 0)`. -/
def actS2a : Activation :=
  { dx := 1, dy := 0, move_type := MoveType.TakeMove, tags := [], catch_to := none }

/-- Second S2 activation: offset `(2, 0)`, the capture. -/
def actS2b : Activation :=
  { dx := 2, dy := 0, move_type := MoveType.TakeMove, tags := [], catch_to := none }

/-- The `jump`-with-empty-activation-list script of C1. -/
def scriptC1 : String := "jump(1, 0);"

/-- The unparseable-`repeat`-argument script of C3. -/
def scriptC3 : String := "repeat(x);"

/-- The token stream of C9: `anchor(0,0) repeat(1);` re-satisfies its
`repeat` guard forever. -/
def loopTokens : List Token :=
  [Token.Anchor 0 0, Token.Repeat 1, Token.Semicolon]

/-- The state of the C9 loop after one round (program counter on the
`repeat`). -/
def loopState1 : ExecState :=
  { initState emptyBoard8 with pc := 1 }

/-- C2 board: a friendly white pawn at `(5, 4)`. -/
def boardC2 : BoardState :=
  { emptyBoard8 with pieces := [((5, 4), ("pawn", true))] }

/-- C2 script: `shift` moves onto any occupied square, including a
friendly one. -/
def scriptC2 : String := "shift(1, 0);"

/-- The activation `shift(1,0);` produces on `boardC2`. -/
def actC2 : Activation :=
  { dx := 1, dy := 0, move_type := MoveType.Shift, tags := [], catch_to := none }

/-- C2 occupancy map of the outer game: some piece (id 1) on `(5, 4)` —
the friendly pawn. -/
def occC2 : List (Square × Nat) := [({ x := 5, y := 4 }, 1)]

/-- The acting piece's square in the C2 scenario. -/
def posC2 : Square := { x := 4, y := 4 }

/-- Modelled from the spec's proposed simplification of `peek`: advance
the anchor unconditionally, then set `last_value` to whether the target
was empty. -/
def peekSpecSimplified (s : ExecState) (dx dy : Int) : ExecState :=
  { s with
    anchor_x := s.anchor_x + dx, anchor_y := s.anchor_y + dy,
    last_value := s.board.is_empty (s.board.piece_x + s.anchor_x + dx)
      (s.board.piece_y + s.anchor_y + dy) }

/-- The chain-reset facts of C6: after a `;` is consumed, the anchor is
`(0,0)`, no tags, `do` and take markers are cleared, and the chain index
advanced by one. -/
def resetProps (s t : ExecState) : Prop :=
  t.anchor_x = 0 ∧ t.anchor_y = 0 ∧ t.pending_tags = [] ∧ t.do_index = none ∧
  t.last_take_pos = none ∧
  t.index_of_expression_chain = s.index_of_expression_chain + 1

/-- The C7 counterexample token stream: chain 0 is
`enemy(1,0) jmp(L) label(L);`, chain 1 is
`anchor(0,1) repeat(5) label(L) move(0,1);`.  The `repeat` in chain 1
moves the program counter backwards across the `;`, desynchronising the
runtime chain counter from the chain containing the program counter. -/
def toksC7 : List Token :=
  [Token.Enemy 1 0, Token.Jmp ("L"), Token.Label ("L"), Token.Semicolon,
   Token.Anchor 0 1, Token.Repeat 5, Token.Label ("L"), Token.Move 0 1,
   Token.Semicolon]

/-- The C7 board: a black enemy at `(5, 5)`, seen by `enemy(1,0)` only
once the anchor has moved to `(0, 1)`. -/
def boardC7 : BoardState :=
  { emptyBoard8 with pieces := [((5, 5), ("pawn", false))] }

/-- The token stream of the C7 amended-claim witness: a single chain
defining label `L`. -/
def toksC7w : List Token :=
  [Token.Label ("L"), Token.Semicolon]

/-- The post-jump state of the C7 amended-claim witness. -/
def stateC7w : ExecState :=
  { initState emptyBoard8 with pc := 1, last_value := true }

/-- C1: the claim says a `jump` dispatched with an empty activation list
sets `last_value = false`, emits nothing and terminates the chain
normally without crashing.  The code instead calls
`activations.last().unwrap()` before any emptiness test, so the very
first token of the script `jump(1, 0);` panics on an empty board: the
embedded run ends in `crash`. -/
theorem claim1_jump_empty_activation_list_panics :
    execute (Interpreter.parse scriptC1) emptyBoard8 5 = some ExecResult.crash := by
  decide

/-- C2 counterexample: running `shift(1, 0);` with a friendly pawn on the
destination `(5, 4)` yields an activation whose synthesized legal-move
record has `is_capture = true`, although the destination holds a friendly
piece — `is_capture` is `self.board.contains_key(&target)`, which ignores
the occupant's side.  The claim's "is_capture is false when the
destination holds a friendly piece" is therefore false. -/
theorem claim2_counterexample_friendly_destination_flagged_capture :
    execute (Interpreter.parse scriptC2) boardC2 5 =
      some (ExecResult.ok [actC2] boardC2) ∧
    boardC2.has_friendly 5 4 = true ∧
    legalMovesFromActivations occC2 posC2 [actC2] =
      [{ from_sq := posC2, to_sq := { x := 5, y := 4 },
         move_type := MoveType.Shift, is_capture := true, tags := [],
         catch_to := { x := 0, y := 0 } }] := by
  decide

/-- C3 counterexample: the claim says every known word with integer
arguments, including `repeat`, coerces an unparseable argument to 0; but
the lexer turns `repeat(x)` into `Repeat(1)` (`unwrap_or(1)`), not
`Repeat(0)`. -/
theorem claim3_counterexample_repeat_coerces_to_one :
    Interpreter.parse scriptC3 = [Token.Repeat 1, Token.Semicolon] ∧
    Token.Repeat 1 ≠ Token.Repeat 0 := by
  decide

/-- C9: `execute` is not total.  On the script `anchor(0,0) repeat(1);`
(whose `repeat` guard is always re-satisfied) the main loop revisits the
same state forever, so the fuel-indexed run returns `none` — fuel
exhausted — for every fuel: no token-dispatch budget exists in the
interpreter itself. -/
theorem claim9_execute_diverges_on_repeat_loop :
    ∀ fuel : Nat, execute loopTokens emptyBoard8 fuel = none := by
  have h0 : stepOnce loopTokens (buildLabels loopTokens) (initState emptyBoard8) =
      StepResult.next loopState1 := by decide
  have h1 : stepOnce loopTokens (buildLabels loopTokens) loopState1 =
      StepResult.next (initState emptyBoard8) := by decide
  have key : ∀ n : Nat,
      runLoop loopTokens (buildLabels loopTokens) n (initState emptyBoard8) = none ∧
      runLoop loopTokens (buildLabels loopTokens) n loopState1 = none := by
    intro n
    induction n with
    | zero => exact ⟨rfl, rfl⟩
    | succ n ih =>
      refine ⟨?_, ?_⟩
      · simp only [runLoop, h0]
        exact ih.2
      · simp only [runLoop, h1]
        exact ih.1
  intro fuel
  exact (key fuel).1

/-- C5: scenario S2 — `take-move(1,0) repeat(1);` on the 8×8 board with a
white piece at `(4,4)` and a single enemy at `(6,4)` yields exactly the
two `TakeMove` activations `(1,0)` then `(2,0)`; and in general the
`take-move` dispatch continues with `last_value = true` on an empty
in-bounds target and emits-then-fails (`last_value = false`) on an enemy
capture. -/
theorem claim5_rook_slide_with_enemy :
    execute (Interpreter.parse scriptS2) boardS2 10 =
      some (ExecResult.ok [actS2a, actS2b] boardS2) ∧
    (∀ (labels : LabelTable) (s : ExecState) (dx dy : Int),
      s.board.in_bounds (s.board.piece_x + s.anchor_x + dx)
        (s.board.piece_y + s.anchor_y + dy) = true →
      s.board.has_friendly (s.board.piece_x + s.anchor_x + dx)
        (s.board.piece_y + s.anchor_y + dy) = false →
      s.board.has_enemy (s.board.piece_x + s.anchor_x + dx)
        (s.board.piece_y + s.anchor_y + dy) = false →
      dispatch labels s (Token.TakeMove dx dy) = DispatchResult.ok { s with
        activations := s.activations ++
          [{ dx := s.anchor_x + dx, dy := s.anchor_y + dy,
             move_type := MoveType.TakeMove, tags := s.pending_tags,
             catch_to := none }],
        anchor_x := s.anchor_x + dx, anchor_y := s.anchor_y + dy,
        last_value := true }) ∧
    (∀ (labels : LabelTable) (s : ExecState) (dx dy : Int),
      s.board.in_bounds (s.board.piece_x + s.anchor_x + dx)
        (s.board.piece_y + s.anchor_y + dy) = true →
      s.board.has_friendly (s.board.piece_x + s.anchor_x + dx)
        (s.board.piece_y + s.anchor_y + dy) = false →
      s.board.has_enemy (s.board.piece_x + s.anchor_x + dx)
        (s.board.piece_y + s.anchor_y + dy) = true →
      dispatch labels s (Token.TakeMove dx dy) = DispatchResult.ok { s with
        activations := s.activations ++
          [{ dx := s.anchor_x + dx, dy := s.anchor_y + dy,
             move_type := MoveType.TakeMove, tags := s.pending_tags,
             catch_to := none }],
        anchor_x := s.anchor_x + dx, anchor_y := s.anchor_y + dy,
        last_value := false }) := by
  refine ⟨by decide, ?_, ?_⟩
  · intro labels s dx dy h1 h2 h3
    simp [dispatch, h1, h2, h3]
  · intro labels s dx dy h1 h2 h3
    simp [dispatch, h1, h2, h3]

/-- C5 witness: the general `take-move` conjuncts applied at the S2
board — empty target `(5,4)` from the initial state, enemy target
`(6,4)` from the state anchored one square right. -/
theorem claim5_witness :
    dispatch [] (initState boardS2) (Token.TakeMove 1 0) =
      DispatchResult.ok { initState boardS2 with
        activations := [actS2a], anchor_x := 1, anchor_y := 0,
        last_value := true } ∧
    dispatch [] { initState boardS2 with anchor_x := 1, activations := [actS2a] }
        (Token.TakeMove 1 0) =
      DispatchResult.ok { initState boardS2 with
        activations := [actS2a, actS2b], anchor_x := 2, anchor_y := 0,
        last_value := false } := by
  constructor
  · have h := claim5_rook_slide_with_enemy.2.1 [] (initState boardS2) 1 0
      (by decide) (by decide) (by decide)
    exact h.trans (by decide)
  · have h := claim5_rook_slide_with_enemy.2.2 []
      { initState boardS2 with anchor_x := 1, activations := [actS2a] } 1 0
      (by decide) (by decide) (by decide)
    exact h.trans (by decide)

/-- C10: dispatching `set-state-reset` with empty `pending_tags` never
fails: `Vec::pop` on an empty vector is a no-op returning `None`, so the
state is unchanged except `last_value = true`, and execution continues. -/
theorem claim10_set_state_reset_on_empty_tags :
    ∀ (labels : LabelTable) (s : ExecState), s.pending_tags = [] →
      dispatch labels s Token.SetStateReset =
        DispatchResult.ok { s with pending_tags := [], last_value := true } := by
  intro labels s h
  simp [dispatch, h]

/-- C10 witness: the theorem applied to the initial state of the empty
board, whose pending-tag list is empty. -/
theorem claim10_witness :
    dispatch [] (initState emptyBoard8) Token.SetStateReset =
      DispatchResult.ok { initState emptyBoard8 with
        pending_tags := [], last_value := true } :=
  claim10_set_state_reset_on_empty_tags [] (initState emptyBoard8) rfl

/-- C8: the three-branch `peek` dispatch is observably equal to the
simplified "advance anchor, `last_value = empty(target)`" definition for
every state; in particular the explicit third (`else`) branch — the only
branch that would not advance the anchor — never contributes. -/
theorem claim8_peek_equals_simplified :
    ∀ (labels : LabelTable) (s : ExecState) (dx dy : Int),
      dispatch labels s (Token.Peek dx dy) =
        DispatchResult.ok (peekSpecSimplified s dx dy) := by
  intro labels s dx dy
  cases h : s.board.is_empty (s.board.piece_x + s.anchor_x + dx)
      (s.board.piece_y + s.anchor_y + dy) <;>
    simp [dispatch, peekSpecSimplified, h]

/-- No dispatch arm writes through the board reference. -/
theorem dispatch_preserves_board :
    ∀ (labels : LabelTable) (s : ExecState) (t : Token) (s' : ExecState),
      dispatch labels s t = DispatchResult.ok s' → s'.board = s.board := by
  intro labels s t s' h
  cases t <;> simp only [dispatch] at h <;>
    (repeat' split at h) <;> (cases h) <;> rfl

/-- The chain-termination skip loop never writes the board. -/
theorem skipChain_preserves_board :
    ∀ (toks : List Token) (fuel : Nat) (s : ExecState),
      ((skipChain toks fuel s).1).board = s.board := by
  intro toks fuel
  induction fuel with
  | zero => intro s; rfl
  | succ n ih =>
    intro s
    simp only [skipChain]
    split
    · split
      · rfl
      · split
        · exact ih _
        · split <;> rfl
      · exact ih _
      · exact ih _
    · rfl

/-- One main-loop round never writes the board. -/
theorem stepOnce_preserves_board :
    ∀ (toks : List Token) (labels : LabelTable) (s : ExecState),
      (∀ s', stepOnce toks labels s = StepResult.next s' → s'.board = s.board) ∧
      (∀ s', stepOnce toks labels s = StepResult.done s' → s'.board = s.board) := by
  intro toks labels s
  constructor <;> intro s' h <;> simp only [stepOnce] at h
  · split at h
    · split at h
      · cases h
        exact skipChain_preserves_board toks (toks.length + 1) _
      · split at h
        · rename_i s'' heq
          cases h
          exact dispatch_preserves_board labels { s with pc := s.pc + 1 } _ _ heq
        · cases h
    · cases h
  · split at h
    · split at h
      · cases h
      · split at h <;> cases h
    · cases h
      rfl

/-- The fuel-indexed main loop never writes the board. -/
theorem runLoop_preserves_board :
    ∀ (toks : List Token) (labels : LabelTable) (fuel : Nat) (s : ExecState)
      (acts : List Activation) (b : BoardState),
      runLoop toks labels fuel s = some (ExecResult.ok acts b) → b = s.board := by
  intro toks labels fuel
  induction fuel with
  | zero => intro s acts b h; cases h
  | succ n ih =>
    intro s acts b h
    simp only [runLoop] at h
    split at h
    · have hb := ih _ acts b h
      rw [hb]
      exact (stepOnce_preserves_board toks labels s).1 _ (by assumption)
    · cases h
      exact (stepOnce_preserves_board toks labels s).2 _ (by assumption)
    · cases h

/-- C4: `execute` never writes through the board-snapshot reference —
whenever a run completes, the final state of the borrowed board equals
the snapshot passed in (hence every field is unchanged) — and the
embedded semantics is a function of the token stream and snapshot, so two
runs on equal inputs return equal results. -/
theorem claim4_execute_board_frame :
    (∀ (toks : List Token) (board : BoardState) (fuel : Nat)
       (acts : List Activation) (board' : BoardState),
       execute toks board fuel = some (ExecResult.ok acts board') →
       board' = board) ∧
    (∀ (toks toks' : List Token) (b b' : BoardState) (fuel : Nat),
       toks = toks' → b = b' → execute toks b fuel = execute toks' b' fuel) := by
  constructor
  · intro toks board fuel acts board' h
    exact runLoop_preserves_board toks (buildLabels toks) fuel (initState board) acts board' h
  · intro toks toks' b b' fuel h1 h2
    rw [h1, h2]

/-- C4 witness: a completed concrete run (`take-move(1,0);` on the S2
board) returns the borrowed board unchanged. -/
theorem claim4_witness :
    boardS2 = boardS2 ∧
    execute [Token.Semicolon] emptyBoard8 3 = execute [Token.Semicolon] emptyBoard8 3 :=
  ⟨claim4_execute_board_frame.1 [Token.TakeMove 1 0, Token.Semicolon] boardS2 5
      [actS2a] boardS2 (by decide),
   claim4_execute_board_frame.2 [Token.Semicolon] [Token.Semicolon]
      emptyBoard8 emptyBoard8 3 rfl rfl⟩

/-- When the chain-termination skip exits by consuming a `;`, the full
chain reset has been performed. -/
theorem skipChain_semicolon_reset :
    ∀ (toks : List Token) (fuel : Nat) (s s' : ExecState),
      skipChain toks fuel s = (s', SkipExit.semicolon) → resetProps s s' := by
  intro toks fuel
  induction fuel with
  | zero =>
    intro s s' h
    exact SkipExit.noConfusion (congrArg Prod.snd h)
  | succ n ih =>
    intro s s' h
    simp only [skipChain] at h
    split at h
    · split at h
      · rw [Prod.mk.injEq] at h
        rw [← h.1]
        exact ⟨rfl, rfl, rfl, rfl, rfl, rfl⟩
      · split at h
        · have hp := ih _ _ h
          exact hp
        · split at h <;> exact SkipExit.noConfusion (congrArg Prod.snd h)
      · have hp := ih _ _ h
        exact hp
      · have hp := ih _ _ h
        exact hp
    · exact SkipExit.noConfusion (congrArg Prod.snd h)

/-- C6: whenever a `;` token is consumed during `execute` — by normal
dispatch (first conjunct; `;` is in the exception set, so a `;` at the
program counter is always dispatched, never skipped) or during a
chain-termination skip (second conjunct; `skipAndResume` is exactly the
state the main loop continues with after a skip) — the resulting state
has anchor `(0,0)`, empty `pending_tags`, cleared `do_anchor` and
`last_take_square`, an incremented chain index, and `last_value = true`. -/
theorem claim6_semicolon_chain_reset :
    (∀ (labels : LabelTable) (s s' : ExecState),
      dispatch labels s Token.Semicolon = DispatchResult.ok s' →
      resetProps s s' ∧ s'.last_value = true) ∧
    (∀ (toks : List Token) (s : ExecState),
      (skipChain toks (toks.length + 1) s).2 = SkipExit.semicolon →
      resetProps s (skipAndResume toks s) ∧
      (skipAndResume toks s).last_value = true) := by
  constructor
  · intro labels s s' hstep
    cases hstep
    exact ⟨⟨rfl, rfl, rfl, rfl, rfl, rfl⟩, rfl⟩
  · intro toks s hskip
    have hpair : skipChain toks (toks.length + 1) s =
        ((skipChain toks (toks.length + 1) s).1, SkipExit.semicolon) := by
      rw [← hskip]
    have props := skipChain_semicolon_reset toks (toks.length + 1) s _ hpair
    exact ⟨props, rfl⟩

/-- C6 witness: both conjuncts at concrete states — a directly dispatched
`;` (first), and a `;` consumed while skipping past `move(0,1) ;` after a
failure (second). -/
theorem claim6_witness :
    (resetProps (initState emptyBoard8)
      { initState emptyBoard8 with index_of_expression_chain := 1 } ∧
     ({ initState emptyBoard8 with
        index_of_expression_chain := 1 } : ExecState).last_value = true) ∧
    (resetProps { initState emptyBoard8 with pc := 1, last_value := false }
      (skipAndResume [Token.End, Token.Move 0 1, Token.Semicolon]
        { initState emptyBoard8 with pc := 1, last_value := false }) ∧
     (skipAndResume [Token.End, Token.Move 0 1, Token.Semicolon]
        { initState emptyBoard8 with pc := 1, last_value := false }).last_value
       = true) :=
  ⟨claim6_semicolon_chain_reset.1 [] (initState emptyBoard8)
      { initState emptyBoard8 with index_of_expression_chain := 1 }
      (by decide),
   claim6_semicolon_chain_reset.2 [Token.End, Token.Move 0 1, Token.Semicolon]
      { initState emptyBoard8 with pc := 1, last_value := false }
      (by decide)⟩

/-- `lookupLabel` over a cons cell of the outer table. -/
theorem lookupLabel_cons (c' : Nat) (m : List (String × Nat)) (tl : LabelTable)
    (c : Nat) (n : String) :
    lookupLabel ((c', m) :: tl) c n =
      if c' = c then alookup m n else lookupLabel tl c n := by
  by_cases h : c' = c <;> simp [lookupLabel, alookup, h]

/-- `alookup` after an inner-map insert. -/
theorem alookup_insertInner (m : List (String × Nat)) (n₀ : String) (p₀ : Nat)
    (n : String) :
    alookup (insertInner m n₀ p₀) n =
      if n₀ = n then some p₀ else alookup m n := by
  induction m with
  | nil => simp [insertInner, alookup]
  | cons hd tl ih =>
    obtain ⟨n', p'⟩ := hd
    by_cases h1 : n' = n₀
    · subst h1
      by_cases h2 : n' = n <;> simp [insertInner, alookup, h2]
    · by_cases h2 : n' = n
      · have h3 : ¬ (n₀ = n) := fun hcontra => h1 (h2.trans hcontra.symm)
        have h4 : ¬ (n = n₀) := fun hcontra => h3 hcontra.symm
        simp [insertInner, alookup, h1, h2, h3, h4]
      · simp [insertInner, alookup, h1, h2, ih]

/-- `lookupLabel` after a label-table insert. -/
theorem lookupLabel_insertLabel (labels : LabelTable) (c₀ : Nat) (n₀ : String)
    (p₀ : Nat) (c : Nat) (n : String) :
    lookupLabel (insertLabel labels c₀ n₀ p₀) c n =
      if c₀ = c ∧ n₀ = n then some p₀ else lookupLabel labels c n := by
  induction labels with
  | nil =>
    by_cases h1 : c₀ = c
    · by_cases h2 : n₀ = n <;> simp [insertLabel, lookupLabel, alookup, h1, h2]
    · simp [insertLabel, lookupLabel, alookup, h1]
  | cons hd tl ih =>
    obtain ⟨c', m⟩ := hd
    by_cases h1 : c' = c₀
    · subst h1
      rw [show insertLabel ((c', m) :: tl) c' n₀ p₀ =
          (c', insertInner m n₀ p₀) :: tl from by simp [insertLabel]]
      rw [lookupLabel_cons, lookupLabel_cons]
      by_cases h2 : c' = c
      · by_cases h3 : n₀ = n
        · rw [if_pos h2, if_pos ⟨h2, h3⟩, alookup_insertInner, if_pos h3]
        · rw [if_pos h2, if_neg (fun hc => h3 hc.2), if_pos h2,
            alookup_insertInner, if_neg h3]
      · rw [if_neg h2, if_neg (fun hc => h2 hc.1), if_neg h2]
    · rw [show insertLabel ((c', m) :: tl) c₀ n₀ p₀ =
          (c', m) :: insertLabel tl c₀ n₀ p₀ from by simp [insertLabel, h1]]
      rw [lookupLabel_cons, lookupLabel_cons]
      by_cases h2 : c' = c
      · have h3 : ¬ (c₀ = c ∧ n₀ = n) := fun hc => h1 (h2.trans hc.1.symm)
        rw [if_pos h2, if_neg h3, if_pos h2]
      · rw [if_neg h2, if_neg h2]
        exact ih

/-- No `;` lies before position 0. -/
theorem chainOf_zero (toks : List Token) : chainOf toks 0 = 0 := by
  simp [chainOf]

/-- Stepping the chain counter over one token. -/
theorem chainOf_succ (toks : List Token) (pc : Nat) (t : Token)
    (h : toks[pc]? = some t) :
    chainOf toks (pc + 1) =
      chainOf toks pc + (if t = Token.Semicolon then 1 else 0) := by
  simp [chainOf, List.take_succ, h, List.countP_append, List.countP_cons]

/-- Every entry the label prepass records points into the chain under
whose index it was recorded, and within the token stream. -/
theorem prepass_good :
    ∀ (rest toks : List Token) (pc chain : Nat) (labels : LabelTable),
      toks.drop pc = rest →
      chainOf toks pc = chain →
      (∀ c n t, lookupLabel labels c n = some t →
        chainOf toks t = c ∧ t ≤ toks.length) →
      ∀ c n t, lookupLabel (prepass rest pc chain labels) c n = some t →
        chainOf toks t = c ∧ t ≤ toks.length := by
  intro rest
  induction rest with
  | nil =>
    intro toks pc chain labels hdrop hchain hgood c n t hl
    exact hgood c n t hl
  | cons tok rest ih =>
    intro toks pc chain labels hdrop hchain hgood c n t hl
    have hget : toks[pc]? = some tok := by
      have h0 : (toks.drop pc)[0]? = some tok := by rw [hdrop]; simp
      rw [List.getElem?_drop] at h0
      simpa using h0
    have hpc : pc < toks.length := by
      rcases List.getElem?_eq_some.mp hget with ⟨h', _⟩
      exact h'
    have hdrop' : toks.drop (pc + 1) = rest := by
      have h0 : (toks.drop pc).drop 1 = rest := by rw [hdrop]; rfl
      rw [List.drop_drop] at h0
      exact h0
    simp only [prepass] at hl
    split at hl
    · -- tok = Semicolon
      refine ih toks (pc + 1) (chain + 1) labels hdrop' ?_ hgood c n t hl
      rw [chainOf_succ toks pc Token.Semicolon hget]
      simp [hchain]
    · -- tok = Label nm
      rename_i nm
      refine ih toks (pc + 1) chain (insertLabel labels chain nm (pc + 1))
        hdrop' ?_ ?_ c n t hl
      · rw [chainOf_succ toks pc (Token.Label nm) hget]
        simp [hchain]
      · intro c' n' t' hl'
        rw [lookupLabel_insertLabel] at hl'
        split at hl'
        · rename_i hcn
          cases Option.some.inj hl'
          constructor
          · rw [chainOf_succ toks pc (Token.Label nm) hget]
            simp [hchain, hcn.1]
          · omega
        · exact hgood c' n' t' hl'
    · -- any other token
      rename_i hne1 hne2
      refine ih toks (pc + 1) chain labels hdrop' ?_ hgood c n t hl
      rw [chainOf_succ toks pc tok hget]
      have : ¬ (tok = Token.Semicolon) := fun hc => hne1 hc
      simp [hchain, this]

/-- Every entry of the label table built for a token stream points into
the chain that is its outer key. -/
theorem buildLabels_sound (toks : List Token) :
    ∀ c n t, lookupLabel (buildLabels toks) c n = some t →
      chainOf toks t = c ∧ t ≤ toks.length := by
  refine prepass_good toks toks 0 0 [] rfl (chainOf_zero toks) ?_
  intro c n t h
  simp [lookupLabel, alookup] at h

/-- C7 amended: `jmp`/`jne` resolve their label through the runtime chain
counter's entry of the precomputed table, so every performed jump lands
in the chain in which that label was defined — the chain whose ordinal is
the runtime chain counter — and within the stream.  (When the runtime
counter agrees with the chain containing the jumping token this is
exactly "no jump across a `;`"; the counterexample shows a `repeat`
moving the program counter backwards across a `;` desynchronises the two
and lets a jump cross a chain boundary.) -/
theorem claim7_amended_jump_lands_in_label_chain :
    (∀ (toks : List Token) (s : ExecState) (lbl : String) (s' : ExecState),
      s.last_value = true →
      dispatch (buildLabels toks) s (Token.Jmp lbl) = DispatchResult.ok s' →
      chainOf toks s'.pc = s.index_of_expression_chain ∧
        s'.pc ≤ toks.length) ∧
    (∀ (toks : List Token) (s : ExecState) (lbl : String) (s' : ExecState),
      s.last_value = false →
      dispatch (buildLabels toks) s (Token.Jne lbl) = DispatchResult.ok s' →
      chainOf toks s'.pc = s.index_of_expression_chain ∧
        s'.pc ≤ toks.length) := by
  constructor
  · intro toks s lbl s' hlv hd
    simp only [dispatch, hlv] at hd
    simp only [if_true] at hd
    split at hd
    · rename_i target heq
      cases hd
      exact buildLabels_sound toks s.index_of_expression_chain lbl target heq
    · cases hd
  · intro toks s lbl s' hlv hd
    simp only [dispatch, hlv] at hd
    simp only [Bool.false_eq_true, not_false_eq_true, if_true] at hd
    split at hd
    · rename_i target heq
      cases hd
      exact buildLabels_sound toks s.index_of_expression_chain lbl target heq
    · cases hd

/-- C7 amended-claim witness: jumping to `L` in the single-chain stream
`label(L) ;` lands at position 1, still in chain 0. -/
theorem claim7_amended_witness :
    chainOf toksC7w stateC7w.pc = 0 ∧ stateC7w.pc ≤ toksC7w.length :=
  claim7_amended_jump_lands_in_label_chain.1 toksC7w (initState emptyBoard8)
    ("L") stateC7w rfl (by decide)

/-- C7 counterexample: in `toksC7` the `repeat(5)` of chain 1 moves the
program counter back to chain 0 without touching the runtime chain
counter.  After 7 rounds the machine is about to dispatch the token at
position 1 — `jmp(L)` — with `last_value = true` and runtime chain
counter 1; one round later the program counter is 7.  Position 1 lies in
chain 0 while position 7 lies in chain 1, so this dispatched `jmp`
transferred control across a `;` boundary, although `L` is even defined
in chain 0, the jumping token's own chain (table entry `(0, L) ↦ 3`). -/
theorem claim7_counterexample_jump_crosses_chain_boundary :
    (runSteps toksC7 (buildLabels toksC7) 7 (initState boardC7)).map
        (fun s => (s.pc, s.last_value, s.index_of_expression_chain)) =
      some (1, true, 1) ∧
    toksC7[1]? = some (Token.Jmp ("L")) ∧
    (runSteps toksC7 (buildLabels toksC7) 8 (initState boardC7)).map
        (fun s => s.pc) = some 7 ∧
    chainOf toksC7 1 = 0 ∧ chainOf toksC7 7 = 1 ∧
    lookupLabel (buildLabels toksC7) 0 ("L") = some 3 := by
  decide

/-- `contains_key` of the engine's occupancy map, as an existential. -/
theorem containsKey_iff (board : List (Square × Nat)) (t : Square) :
    containsKey board t = true ↔ ∃ pid, (t, pid) ∈ board := by
  simp only [containsKey, List.any_eq_true, decide_eq_true_eq]
  constructor
  · rintro ⟨⟨a, b⟩, hmem, ha⟩
    cases ha
    exact ⟨b, hmem⟩
  · rintro ⟨pid, hmem⟩
    exact ⟨(t, pid), hmem, rfl⟩

/-- C2 amended: for every legal-move record synthesized from an
activation surviving the bounds filter, `is_capture` is true iff the
destination square is occupied by ANY piece of the outer board —
regardless of side, and with no special case for `Jump`. -/
theorem claim2_amended_capture_iff_destination_occupied :
    ∀ (board : List (Square × Nat)) (pos : Square) (acts : List Activation)
      (m : LegalMove), m ∈ legalMovesFromActivations board pos acts →
      ((m.is_capture = true ↔ ∃ pid, (m.to_sq, pid) ∈ board) ∧
       m.to_sq.is_valid = true) := by
  intro board pos acts
  induction acts with
  | nil =>
    intro m hm
    simp [legalMovesFromActivations] at hm
  | cons a rest ih =>
    intro m hm
    simp only [legalMovesFromActivations] at hm
    split at hm
    · rename_i hvalid
      rcases List.mem_cons.mp hm with hm1 | hm2
      · subst hm1
        exact ⟨containsKey_iff board _, hvalid⟩
      · exact ih m hm2
    · exact ih m hm

/-- The legal-move record of the C2 scenario. -/
def moveC2 : LegalMove :=
  { from_sq := posC2, to_sq := { x := 5, y := 4 },
    move_type := MoveType.Shift, is_capture := true, tags := [],
    catch_to := { x := 0, y := 0 } }

/-- C2 amended witness: the record synthesized for the `shift` activation
onto the occupied square `(5,4)`. -/
theorem claim2_amended_witness :
    (moveC2.is_capture = true ↔ ∃ pid, (moveC2.to_sq, pid) ∈ occC2) ∧
    moveC2.to_sq.is_valid = true :=
  claim2_amended_capture_iff_destination_occupied occC2 posC2 [actC2] moveC2
    (by decide)

/-- C3 amended: every known word with integer arguments coerces an
argument that fails to parse to 0 — except `repeat`, whose argument falls
back to 1 (matching its no-argument default); name arguments remain
strings. -/
theorem claim3_amended_integer_coercion :
    ∀ (s t nm : String),
      Lexer.parseI32? s = none → Lexer.parseI32? t = none →
      Lexer.parseUsize? s = none →
      (Lexer.parse_token ("take-move") [s, t] = Token.TakeMove 0 0 ∧
       Lexer.parse_token ("move") [s, t] = Token.Move 0 0 ∧
       Lexer.parse_token ("take") [s, t] = Token.Take 0 0 ∧
       Lexer.parse_token ("catch") [s, t] = Token.Catch 0 0 ∧
       Lexer.parse_token ("shift") [s, t] = Token.Shift 0 0 ∧
       Lexer.parse_token ("jump") [s, t] = Token.Jump 0 0 ∧
       Lexer.parse_token ("anchor") [s, t] = Token.Anchor 0 0 ∧
       Lexer.parse_token ("observe") [s, t] = Token.Observe 0 0 ∧
       Lexer.parse_token ("peek") [s, t] = Token.Peek 0 0 ∧
       Lexer.parse_token ("enemy") [s, t] = Token.Enemy 0 0 ∧
       Lexer.parse_token ("friendly") [s, t] = Token.Friendly 0 0 ∧
       Lexer.parse_token ("danger") [s, t] = Token.Danger 0 0 ∧
       Lexer.parse_token ("bound") [s, t] = Token.Bound 0 0 ∧
       Lexer.parse_token ("edge") [s, t] = Token.Edge 0 0 ∧
       Lexer.parse_token ("edge-top") [s, t] = Token.EdgeTop 0 0 ∧
       Lexer.parse_token ("edge-bottom") [s, t] = Token.EdgeBottom 0 0 ∧
       Lexer.parse_token ("edge-left") [s, t] = Token.EdgeLeft 0 0 ∧
       Lexer.parse_token ("edge-right") [s, t] = Token.EdgeRight 0 0 ∧
       Lexer.parse_token ("corner") [s, t] = Token.Corner 0 0 ∧
       Lexer.parse_token ("corner-top-left") [s, t] = Token.CornerTopLeft 0 0 ∧
       Lexer.parse_token ("corner-top-right") [s, t] = Token.CornerTopRight 0 0 ∧
       Lexer.parse_token ("corner-bottom-left") [s, t] = Token.CornerBottomLeft 0 0 ∧
       Lexer.parse_token ("corner-bottom-right") [s, t] = Token.CornerBottomRight 0 0) ∧
      (Lexer.parse_token ("piece-on") [nm, s, t] = Token.PieceOn nm 0 0 ∧
       Lexer.parse_token ("if-state") [nm, s] = Token.IfState nm 0 ∧
       Lexer.parse_token ("set-state") [nm, s] = Token.SetState nm 0) ∧
      Lexer.parse_token ("repeat") [s] = Token.Repeat 1 ∧
      (Lexer.parse_token ("piece") [nm] = Token.Piece nm ∧
       Lexer.parse_token ("transition") [nm] = Token.Transition nm ∧
       Lexer.parse_token ("jmp") [nm] = Token.Jmp nm ∧
       Lexer.parse_token ("jne") [nm] = Token.Jne nm ∧
       Lexer.parse_token ("label") [nm] = Token.Label nm) := by
  intro s t nm hs ht hus
  have hz : Lexer.parse_i32 s = 0 := by simp [Lexer.parse_i32, hs]
  have hzt : Lexer.parse_i32 t = 0 := by simp [Lexer.parse_i32, ht]
  refine ⟨⟨?_, ?_, ?_, ?_, ?_, ?_, ?_, ?_, ?_, ?_, ?_, ?_, ?_, ?_, ?_, ?_, ?_, ?_, ?_, ?_, ?_, ?_, ?_⟩, ⟨?_, ?_, ?_⟩, ?_, ⟨?_, ?_, ?_, ?_, ?_⟩⟩
  · rw [show Lexer.parse_token ("take-move") [s, t] =
        Token.TakeMove (Lexer.parse_i32 s) (Lexer.parse_i32 t) from rfl,
      hz, hzt]
  · rw [show Lexer.parse_token ("move") [s, t] =
        Token.Move (Lexer.parse_i32 s) (Lexer.parse_i32 t) from rfl,
      hz, hzt]
  · rw [show Lexer.parse_token ("take") [s, t] =
        Token.Take (Lexer.parse_i32 s) (Lexer.parse_i32 t) from rfl,
      hz, hzt]
  · rw [show Lexer.parse_token ("catch") [s, t] =
        Token.Catch (Lexer.parse_i32 s) (Lexer.parse_i32 t) from rfl,
      hz, hzt]
  · rw [show Lexer.parse_token ("shift") [s, t] =
        Token.Shift (Lexer.parse_i32 s) (Lexer.parse_i32 t) from rfl,
      hz, hzt]
  · rw [show Lexer.parse_token ("jump") [s, t] =
        Token.Jump (Lexer.parse_i32 s) (Lexer.parse_i32 t) from rfl,
      hz, hzt]
  · rw [show Lexer.parse_token ("anchor") [s, t] =
        Token.Anchor (Lexer.parse_i32 s) (Lexer.parse_i32 t) from rfl,
      hz, hzt]
  · rw [show Lexer.parse_token ("observe") [s, t] =
        Token.Observe (Lexer.parse_i32 s) (Lexer.parse_i32 t) from rfl,
      hz, hzt]
  · rw [show Lexer.parse_token ("peek") [s, t] =
        Token.Peek (Lexer.parse_i32 s) (Lexer.parse_i32 t) from rfl,
      hz, hzt]
  · rw [show Lexer.parse_token ("enemy") [s, t] =
        Token.Enemy (Lexer.parse_i32 s) (Lexer.parse_i32 t) from rfl,
      hz, hzt]
  · rw [show Lexer.parse_token ("friendly") [s, t] =
        Token.Friendly (Lexer.parse_i32 s) (Lexer.parse_i32 t) from rfl,
      hz, hzt]
  · rw [show Lexer.parse_token ("danger") [s, t] =
        Token.Danger (Lexer.parse_i32 s) (Lexer.parse_i32 t) from rfl,
      hz, hzt]
  · rw [show Lexer.parse_token ("bound") [s, t] =
        Token.Bound (Lexer.parse_i32 s) (Lexer.parse_i32 t) from rfl,
      hz, hzt]
  · rw [show Lexer.parse_token ("edge") [s, t] =
        Token.Edge (Lexer.parse_i32 s) (Lexer.parse_i32 t) from rfl,
      hz, hzt]
  · rw [show Lexer.parse_token ("edge-top") [s, t] =
        Token.EdgeTop (Lexer.parse_i32 s) (Lexer.parse_i32 t) from rfl,
      hz, hzt]
  · rw [show Lexer.parse_token ("edge-bottom") [s, t] =
        Token.EdgeBottom (Lexer.parse_i32 s) (Lexer.parse_i32 t) from rfl,
      hz, hzt]
  · rw [show Lexer.parse_token ("edge-left") [s, t] =
        Token.EdgeLeft (Lexer.parse_i32 s) (Lexer.parse_i32 t) from rfl,
      hz, hzt]
  · rw [show Lexer.parse_token ("edge-right") [s, t] =
        Token.EdgeRight (Lexer.parse_i32 s) (Lexer.parse_i32 t) from rfl,
      hz, hzt]
  · rw [show Lexer.parse_token ("corner") [s, t] =
        Token.Corner (Lexer.parse_i32 s) (Lexer.parse_i32 t) from rfl,
      hz, hzt]
  · rw [show Lexer.parse_token ("corner-top-left") [s, t] =
        Token.CornerTopLeft (Lexer.parse_i32 s) (Lexer.parse_i32 t) from rfl,
      hz, hzt]
  · rw [show Lexer.parse_token ("corner-top-right") [s, t] =
        Token.CornerTopRight (Lexer.parse_i32 s) (Lexer.parse_i32 t) from rfl,
      hz, hzt]
  · rw [show Lexer.parse_token ("corner-bottom-left") [s, t] =
        Token.CornerBottomLeft (Lexer.parse_i32 s) (Lexer.parse_i32 t) from rfl,
      hz, hzt]
  · rw [show Lexer.parse_token ("corner-bottom-right") [s, t] =
        Token.CornerBottomRight (Lexer.parse_i32 s) (Lexer.parse_i32 t) from rfl,
      hz, hzt]
  · rw [show Lexer.parse_token ("piece-on") [nm, s, t] =
        Token.PieceOn nm (Lexer.parse_i32 s) (Lexer.parse_i32 t) from rfl,
      hz, hzt]
  · rw [show Lexer.parse_token ("if-state") [nm, s] =
        Token.IfState nm (Lexer.parse_i32 s) from rfl, hz]
  · rw [show Lexer.parse_token ("set-state") [nm, s] =
        Token.SetState nm (Lexer.parse_i32 s) from rfl, hz]
  · rw [show Lexer.parse_token ("repeat") [s] =
        Token.Repeat ((Lexer.parseUsize? s).getD 1) from rfl, hus]
    rfl
  · exact rfl
  · exact rfl
  · exact rfl
  · exact rfl
  · exact rfl


/-- C3 amended-claim witness: the amended coercions at the concrete
unparseable arguments `"x"`, `"y"` and name `"n"`. -/
theorem claim3_amended_witness :
    Lexer.parse_token ("move") [("x"), ("y")] = Token.Move 0 0 ∧
    Lexer.parse_token ("repeat") [("x")] = Token.Repeat 1 ∧
    Lexer.parse_token ("jmp") [("n")] = Token.Jmp ("n") :=
  have h := claim3_amended_integer_coercion ("x") ("y") ("n")
    (by decide) (by decide) (by decide)
  ⟨h.1.2.1, h.2.2.1, h.2.2.2.2.2.1⟩
